import Mathlib

/-!
Shallow embedding of the xetra incremental ETL pipeline's core logic:

* `MetaProcess.return_date_list` and `MetaProcess.update_meta_file`
  (src/xetra/common/meta_process.py) — date-gap reconciliation against the
  processed-dates ledger, and the append-only ledger update;
* `S3BucketConnector.write_df_to_s3` (src/xetra/common/s3.py) — the
  empty-frame guard and format dispatch at the write boundary;
* `XetraETL.transform_report1` and the `meta_update_list` glue
  (src/xetra/transformers/xetra_transformer.py) — the per-(instrument, date)
  aggregation with the prior-opening percent-change column and the trailing
  cutoff filter.

Calendar dates are modelled as proleptic ordinals (`Nat`, days counted from
0001-01-01 = 1, as Python's `date.toordinal`); `YYYY-MM-DD` strings compare
lexicographically exactly as their ordinals compare numerically, so the
code's string comparisons become `Nat` comparisons.  Prices are `ℚ`
(pandas float columns), traded volumes are `ℤ` (pandas int64 columns, which
`DataFrame.round` leaves untouched).  Absence of an object-store key is the
`Option.none` case, mirroring the `NoSuchKey` control-flow branch.
-/

namespace Xetra

/-- Modelled from the spec (§6 Ledger file shape): the `constants` module of
the repository is not under src/; the ledger's first column name. -/
def META_SOURCE_DATE_COL : String := "source_date"

/-- Modelled from the spec (§6 Ledger file shape): the `constants` module of
the repository is not under src/; the ledger's second column name. -/
def META_PROCESS_COL : String := "process_timestamp"

/-- Modelled from the spec (§6): the ledger is persisted as a csv table. -/
def META_FILE_FORMAT : String := "csv"

/-- A stored table: named columns with their cell values.  Cells are day
ordinals (for `source_date`) or timestamp codes (for `process_timestamp`);
the code never mixes the two. -/
structure DataFrame where
  cols : List (String × List Nat)
deriving DecidableEq, Repr

/-- The column names of a table, in order (`df.columns`). -/
def namesOf (df : DataFrame) : List String := df.cols.map Prod.fst

/-- Column access `df[name]`: `none` is pandas' `KeyError`. -/
def lookupCol (df : DataFrame) (n : String) : Option (List Nat) :=
  List.lookup n df.cols

/-- `df.empty`: no columns, or every column has no rows. -/
def DataFrame.isEmpty (df : DataFrame) : Bool :=
  df.cols.all (fun c => c.2.isEmpty)

/-- The failure kinds the meta-process code can surface: a raw pandas
column-lookup failure (`KeyError`), the `WrongMetaFileException` domain
error, and the `WrongFormatException` of the write boundary. -/
inductive MetaError
  | keyError
  | wrongMetaFile
  | wrongFormat
deriving DecidableEq, Repr

/-- What `write_df_to_s3` did to the store: nothing (empty-frame guard), or
it put an object with the given table content. -/
inductive WriteEffect
  | noWrite
  | wrote (df : DataFrame)
deriving DecidableEq, Repr

/-- `S3BucketConnector.write_df_to_s3`: an empty frame is a logged no-op,
csv and parquet are written, any other format raises
`WrongFormatException`. -/
def write_df_to_s3 (df : DataFrame) (fmt : String) : Except MetaError WriteEffect :=
  if df.isEmpty then .ok .noWrite
  else if fmt = "csv" then .ok (.wrote df)
  else if fmt = "parquet" then .ok (.wrote df)
  else .error .wrongFormat

/-- `pd.concat([df_old, df_new])` for frames with the same column-name
multiset: the result keeps `df_old`'s column order, each column holding the
old rows then the new rows. -/
def dfConcat (dfOld dfNew : DataFrame) : DataFrame :=
  ⟨dfOld.cols.map (fun c => (c.1, c.2 ++ ((List.lookup c.1 dfNew.cols).getD [])))⟩

/-- `MetaProcess.update_meta_file`: build the new two-column frame (one row
per extract date, every `process_timestamp` cell equal to `now`); if a
ledger exists, compare the column-name multisets (`collections.Counter`)
and raise `WrongMetaFileException` on mismatch, else concatenate old-then-new;
if no ledger exists the new frame stands alone; write the result as csv and
return `True`. -/
def update_meta_file (ledger : Option DataFrame) (extract_date_list : List Nat)
    (now : Nat) : Except MetaError (WriteEffect × Bool) :=
  let df_new : DataFrame :=
    ⟨[(META_SOURCE_DATE_COL, extract_date_list),
      (META_PROCESS_COL, extract_date_list.map (fun _ => now))]⟩
  match ledger with
  | some df_old =>
      if (namesOf df_old).isPerm (namesOf df_new) then
        (write_df_to_s3 (dfConcat df_old df_new) META_FILE_FORMAT).map (fun w => (w, true))
      else
        .error .wrongMetaFile
  | none =>
      (write_df_to_s3 df_new META_FILE_FORMAT).map (fun w => (w, true))

/-- Proleptic ordinal of 2200-01-01, the far-future sentinel
`dt.datetime(2200, 1, 1)`. -/
def sentinelDate : Nat := 803169

/-- The ascending day list `[start + dt.timedelta(days=x) for x in
range(0, (today-start).days + 1)]`; empty when `today < start`. -/
def dateRange (start today : Nat) : List Nat :=
  (List.range (today + 1 - start)).map (fun x => start + x)

/-- `MetaProcess.return_date_list`: `start = arg_date - 1 day`; with no
ledger (`NoSuchKey`) return `(arg_date, [start..today])`; with a ledger,
read its `source_date` column (a missing column is a raw `KeyError`), form
the dates of `[start..today]` after the first that are not yet in the
ledger, and if any are missing return `(min_missing, every date ≥
min_missing - 1)`, else the sentinel with an empty list. -/
def return_date_list (ledger : Option DataFrame) (arg_date today : Nat) :
    Except MetaError (Nat × List Nat) :=
  let start := arg_date - 1
  match ledger with
  | none =>
      .ok (arg_date, dateRange start today)
  | some df_meta =>
      match lookupCol df_meta META_SOURCE_DATE_COL with
      | none => .error .keyError
      | some src_dates =>
          let dates := dateRange start today
          let dates_missing := (dates.drop 1).filter (fun d => !(src_dates.contains d))
          match dates_missing.min? with
          | some m =>
              let min_date := m - 1
              .ok (min_date + 1, dates.filter (fun d => decide (min_date ≤ d)))
          | none =>
              .ok (sentinelDate, [])

/-- `XetraETL.__init__` line 90: the dates recorded as processed are the
resolved dates at or after the extract (cutoff) date. -/
def meta_update_list (extract_date : Nat) (extract_date_list : List Nat) : List Nat :=
  extract_date_list.filter (fun d => decide (extract_date ≤ d))

/-- One cleaned raw observation after the projection/dropna of
`transform_report1` steps 1–2: every kept column is present.  `date` and
`time` are day/time ordinals, prices are `ℚ`, `tradedVolume` is pandas
int64, hence `ℤ`. -/
structure RawRecord where
  isin : String
  date : Nat
  time : Nat
  startPrice : ℚ
  minPrice : ℚ
  maxPrice : ℚ
  tradedVolume : ℤ
deriving DecidableEq, Repr

/-- One output row of report 1.  `changePrevClosing` is `none` where the
pandas `shift(1)` leaves `NaN` (the first row of an instrument). -/
structure Report1Row where
  isin : String
  date : Nat
  openingPrice : ℚ
  closingPrice : ℚ
  minimumPrice : ℚ
  maximumPrice : ℚ
  dailyTradedVolume : ℤ
  changePrevClosing : Option ℚ
deriving DecidableEq, Repr

/-- The records of one `(isin, date)` group, in frame order. -/
def groupOf (df : List RawRecord) (i : String) (d : Nat) : List RawRecord :=
  df.filter (fun r => r.isin == i && r.date == d)

/-- Insert a record into a time-sorted list, before the first record of
equal or later time (stability: earlier-seen records stay first). -/
def insertByTime (r : RawRecord) : List RawRecord → List RawRecord
  | [] => [r]
  | s :: ss => if r.time ≤ s.time then r :: s :: ss else s :: insertByTime r ss

/-- `df.sort_values(by=[Time])` restricted to a group: a stable sort by
time. -/
def sortByTime : List RawRecord → List RawRecord
  | [] => []
  | r :: rs => insertByTime r (sortByTime rs)

/-- `transform("first")` of the start price on the time-sorted group: the
opening price of `(i, d)`. -/
def openingOf (df : List RawRecord) (i : String) (d : Nat) : ℚ :=
  match sortByTime (groupOf df i d) with
  | [] => 0
  | r :: _ => r.startPrice

/-- `transform("last")` of the start price on the time-sorted group: the
closing price of `(i, d)`. -/
def closingOf (df : List RawRecord) (i : String) (d : Nat) : ℚ :=
  match (sortByTime (groupOf df i d)).getLast? with
  | none => 0
  | some r => r.startPrice

/-- `agg min` of the minimum-price column over the group. -/
def minPriceOf (df : List RawRecord) (i : String) (d : Nat) : ℚ :=
  (((groupOf df i d).map RawRecord.minPrice).min?).getD 0

/-- `agg max` of the maximum-price column over the group. -/
def maxPriceOf (df : List RawRecord) (i : String) (d : Nat) : ℚ :=
  (((groupOf df i d).map RawRecord.maxPrice).max?).getD 0

/-- `agg sum` of the traded-volume column over the group. -/
def volumeOf (df : List RawRecord) (i : String) (d : Nat) : ℤ :=
  ((groupOf df i d).map RawRecord.tradedVolume).sum

/-- The distinct dates of instrument `i`, ascending: the group keys of the
date-sorted `groupby`. -/
def datesOf (df : List RawRecord) (i : String) : List Nat :=
  List.insertionSort (· ≤ ·) ((df.filter (fun r => r.isin == i)).map RawRecord.date).dedup

/-- The distinct instruments of the frame (the claims under scrutiny are
invariant under the order of instrument groups, so first-seen order stands
in for the groupby's sorted key order). -/
def instrumentsOf (df : List RawRecord) : List String :=
  (df.map RawRecord.isin).dedup

/-- One reduced row: the group aggregates plus the percent change against
the carried previous opening price (pandas `shift(1)` within the
instrument). -/
def aggRow (df : List RawRecord) (i : String) (d : Nat) (prev : Option ℚ) :
    Report1Row where
  isin := i
  date := d
  openingPrice := openingOf df i d
  closingPrice := closingOf df i d
  minimumPrice := minPriceOf df i d
  maximumPrice := maxPriceOf df i d
  dailyTradedVolume := volumeOf df i d
  changePrevClosing := prev.map (fun p => (openingOf df i d - p) / p * 100)

/-- The reduced rows of one instrument over its ascending dates, carrying
each date's opening price into the next row's percent change. -/
def rowsChain (df : List RawRecord) (i : String) : List Nat → Option ℚ → List Report1Row
  | [], _ => []
  | d :: ds, prev => aggRow df i d prev :: rowsChain df i ds (some (openingOf df i d))

/-- Round to two decimal places (`df.round(decimals=2)` on a float
column). -/
def round2 (q : ℚ) : ℚ := round (q * 100) / 100

/-- `df.round(decimals=2)` on one row: float columns are rounded, the int64
volume column and the string/date keys are untouched. -/
def roundRow (r : Report1Row) : Report1Row :=
  { r with
    openingPrice := round2 r.openingPrice
    closingPrice := round2 r.closingPrice
    minimumPrice := round2 r.minimumPrice
    maximumPrice := round2 r.maximumPrice
    changePrevClosing := r.changePrevClosing.map round2 }

/-- `XetraETL.transform_report1`: an empty frame short-circuits; otherwise
reduce each `(instrument, date)` group, add the percent-change column,
round, and drop every row dated before the cutoff (`extract_date`). -/
def transform_report1 (df : List RawRecord) (cutoff : Nat) : List Report1Row :=
  match df with
  | [] => []
  | _ :: _ =>
      (((instrumentsOf df).flatMap (fun i => rowsChain df i (datesOf df i) none)).map
          roundRow).filter (fun r => decide (cutoff ≤ r.date))

/-- The element immediately before the (unique) occurrence of `d` in `l`. -/
def predIn : List Nat → Nat → Option Nat
  | x :: y :: rest, d => if y = d then some x else predIn (y :: rest) d
  | _, _ => none

/-! ### Facts about the calendar window -/

theorem mem_dateRange {s t d : Nat} : d ∈ dateRange s t ↔ s ≤ d ∧ d ≤ t := by
  simp only [dateRange, List.mem_map, List.mem_range]
  constructor
  · rintro ⟨x, hx, rfl⟩
    omega
  · rintro ⟨h1, h2⟩
    exact ⟨d - s, by omega, by omega⟩

theorem dateRange_eq_cons {s t : Nat} (h : s ≤ t) :
    dateRange s t = s :: dateRange (s + 1) t := by
  unfold dateRange
  have h1 : t + 1 - s = (t - s) + 1 := by omega
  have h2 : t + 1 - (s + 1) = t - s := by omega
  rw [h1, h2, List.range_succ_eq_map, List.map_cons, List.map_map]
  refine congrArg (fun l => (s + 0) :: l) ?_
  refine List.map_congr_left ?_
  intro x _
  simp [Function.comp]
  omega

theorem pairwise_dateRange {s t : Nat} : (dateRange s t).Pairwise (· < ·) := by
  unfold dateRange
  exact (List.pairwise_lt_range _).map _ (fun a b hab => by omega)

/-- The spec's `missing` set — the window minus the lookback day minus the
processed dates — coincides with the code's `set(dates[1:]) - src_dates`. -/
theorem missing_filter_eq_drop {r t : Nat} (src : List Nat)
    (h2 : r - 1 ≤ t) :
    (dateRange (r - 1) t).filter (fun d => decide (d ≠ r - 1) && !(src.contains d))
      = ((dateRange (r - 1) t).drop 1).filter (fun d => !(src.contains d)) := by
  rw [dateRange_eq_cons h2, List.filter_cons, List.drop_one, List.tail_cons]
  rw [if_neg (by simp)]
  refine List.filter_congr ?_
  intro d hd
  have hlt : r - 1 + 1 ≤ d := (mem_dateRange.mp hd).1
  have hne : decide (d ≠ r - 1) = true := by
    simp only [decide_eq_true_iff]
    omega
  rw [hne, Bool.true_and]

/-- C1: with an existing ledger that has the `source_date` column, a
requested start date `r` and current date `t` with `r - 1 ≤ t`, and a
non-empty `missing = (W \ \x7br-1\x7d) \ processed` whose minimum is `M`,
`return_date_list` returns `cutoff_date = M` (that is, `boundary + 1` for
`boundary = M - 1`) and `date_list = every date of `W` that is
`≥ M - 1`, strictly ascending, containing `t`. -/
theorem claim_C1 (df : DataFrame) (src : List Nat) (r t M : Nat)
    (h2 : r - 1 ≤ t)
    (hcol : lookupCol df META_SOURCE_DATE_COL = some src)
    (hM : ((dateRange (r - 1) t).filter
        (fun d => decide (d ≠ r - 1) && !(src.contains d))).min? = some M) :
    return_date_list (some df) r t =
      .ok (M, (dateRange (r - 1) t).filter (fun d => decide (M - 1 ≤ d)))
    ∧ ((dateRange (r - 1) t).filter (fun d => decide (M - 1 ≤ d))).Pairwise (· < ·)
    ∧ t ∈ (dateRange (r - 1) t).filter (fun d => decide (M - 1 ≤ d)) := by
  have hMmem : M ∈ (dateRange (r - 1) t).filter
      (fun d => decide (d ≠ r - 1) && !(src.contains d)) :=
    List.min?_mem (fun a b => min_choice a b) hM
  rw [List.mem_filter] at hMmem
  obtain ⟨hMW, hMpred⟩ := hMmem
  obtain ⟨hMlo, hMhi⟩ := mem_dateRange.mp hMW
  have hMne : M ≠ r - 1 := by
    rcases Bool.and_eq_true_iff.mp hMpred with ⟨hl, _⟩
    exact of_decide_eq_true hl
  have hM1 : 1 ≤ M := by omega
  have hMcode : (((dateRange (r - 1) t).drop 1).filter
      (fun d => !(src.contains d))).min? = some M := by
    rw [← missing_filter_eq_drop src h2]
    exact hM
  refine ⟨?_, ?_, ?_⟩
  · simp only [return_date_list, hcol]
    rw [hMcode]
    have h : M - 1 + 1 = M := by omega
    dsimp only
    rw [h]
  · exact pairwise_dateRange.filter _
  · rw [List.mem_filter]
    refine ⟨mem_dateRange.mpr ⟨h2, le_refl t⟩, ?_⟩
    simp only [decide_eq_true_iff]
    omega

/-- Witness for C1 at a concrete ledger: processed dates 5 and 6, requested
start 5, today 8; the missing dates are 7 and 8, so the cutoff is 7 and the
resolved list is [6, 7, 8]. -/
theorem claim_C1_witness :
    return_date_list
        (some ⟨[(META_SOURCE_DATE_COL, [5, 6]), (META_PROCESS_COL, [9, 9])]⟩) 5 8
      = .ok (7, [6, 7, 8]) := by
  have h := claim_C1 ⟨[(META_SOURCE_DATE_COL, [5, 6]), (META_PROCESS_COL, [9, 9])]⟩
    [5, 6] 5 8 7 (by decide) (by decide) (by decide)
  rw [h.1]
  exact congrArg (fun l => Except.ok (7, l)) (by decide)

/-- C2: with no ledger (cold start), `return_date_list` returns
`cutoff_date = r` and `date_list = every day from r - 1 to t` in ascending
order, consulting no ledger content. -/
theorem claim_C2 (r t : Nat) :
    return_date_list none r t = .ok (r, dateRange (r - 1) t)
    ∧ (∀ d, d ∈ dateRange (r - 1) t ↔ r - 1 ≤ d ∧ d ≤ t)
    ∧ (dateRange (r - 1) t).Pairwise (· < ·) :=
  ⟨rfl, fun _ => mem_dateRange, pairwise_dateRange⟩

theorem dateRange_eq_nil_iff {s t : Nat} : dateRange s t = [] ↔ t + 1 ≤ s := by
  unfold dateRange
  rw [List.map_eq_nil_iff, List.range_eq_nil]
  omega

/-- C10: whatever outcome reconciliation produces, the dates the pipeline
appends to the ledger are exactly the resolved dates at or after the cutoff;
the lookback day (cutoff minus one) is never among them, although it is in
the resolved (extracted) list whenever that list is non-empty. -/
theorem claim_C10 (led : Option DataFrame) (r t ed : Nat) (dl : List Nat)
    (h1 : 1 ≤ r)
    (hres : return_date_list led r t = .ok (ed, dl)) :
    meta_update_list ed dl = dl.filter (fun d => decide (ed ≤ d))
    ∧ (ed - 1) ∉ meta_update_list ed dl
    ∧ (dl ≠ [] → (ed - 1) ∈ dl) := by
  have hed1 : 1 ≤ ed ∧ (dl ≠ [] → (ed - 1) ∈ dl) := by
    cases led with
    | none =>
        simp only [return_date_list, Except.ok.injEq, Prod.mk.injEq] at hres
        obtain ⟨rfl, rfl⟩ := hres
        refine ⟨h1, fun hne => ?_⟩
        have hle : r - 1 ≤ t := by
          by_contra hlt
          exact hne (dateRange_eq_nil_iff.mpr (by omega))
        exact mem_dateRange.mpr ⟨le_refl _, hle⟩
    | some df =>
        simp only [return_date_list] at hres
        rcases hcol : lookupCol df META_SOURCE_DATE_COL with _ | src
        · rw [hcol] at hres
          exact absurd hres (by simp)
        · rw [hcol] at hres
          dsimp only at hres
          rcases hmin : (((dateRange (r - 1) t).drop 1).filter
              (fun d => !(src.contains d))).min? with _ | m
          · rw [hmin] at hres
            simp only [Except.ok.injEq, Prod.mk.injEq] at hres
            obtain ⟨rfl, rfl⟩ := hres
            exact ⟨by norm_num [sentinelDate], by simp⟩
          · rw [hmin] at hres
            simp only [Except.ok.injEq, Prod.mk.injEq] at hres
            obtain ⟨rfl, rfl⟩ := hres
            have hmmem : m ∈ ((dateRange (r - 1) t).drop 1).filter
                (fun d => !(src.contains d)) :=
              List.min?_mem (fun a b => min_choice a b) hmin
            rw [List.mem_filter] at hmmem
            have hle : r - 1 ≤ t := by
              by_contra hlt
              rw [dateRange_eq_nil_iff.mpr (by omega)] at hmmem
              simp at hmmem
            rw [dateRange_eq_cons hle, List.drop_one, List.tail_cons] at hmmem
            obtain ⟨hmlo, hmhi⟩ := mem_dateRange.mp hmmem.1
            constructor
            · omega
            · intro _
              rw [List.mem_filter]
              refine ⟨mem_dateRange.mpr ⟨by omega, by omega⟩, ?_⟩
              simp
  refine ⟨rfl, ?_, hed1.2⟩
  intro hmem
  rw [meta_update_list, List.mem_filter] at hmem
  have := of_decide_eq_true hmem.2
  omega

/-- Witness for C10: a cold start with requested date 5 and today 6 resolves
to cutoff 5 and list [4, 5, 6]; the recorded dates are [5, 6] and the
lookback day 4 is not among them. -/
theorem claim_C10_witness :
    meta_update_list 5 [4, 5, 6] = [5, 6] ∧ 4 ∉ meta_update_list 5 [4, 5, 6] := by
  have h := claim_C10 none 5 6 5 [4, 5, 6] (by decide) rfl
  exact ⟨h.1.trans (by decide), h.2.1⟩

/-! ### Schema validation on the reconciliation read path (C3) -/

/-- C3 counterexample: a stored ledger whose columns are `source_date` and
`extra` does not match the two-column contract, yet `return_date_list`
succeeds instead of failing with `WrongMetaFileException`. -/
theorem claim_C3_counterexample :
    (namesOf ⟨[(META_SOURCE_DATE_COL, [9]), ("extra", [0])]⟩).isPerm
        [META_SOURCE_DATE_COL, META_PROCESS_COL] = false
    ∧ return_date_list (some ⟨[(META_SOURCE_DATE_COL, [9]), ("extra", [0])]⟩) 9 10
        = .ok (10, [9, 10]) :=
  ⟨by decide, rfl⟩

/-- C3 (amended): the reconciliation read path performs no schema
validation: a stored table without the `source_date` column makes
`return_date_list` fail with the raw column-lookup error (`KeyError`), and
whenever `source_date` is present it succeeds, whatever the remaining
columns are. -/
theorem claim_C3_amended :
    (∀ (df : DataFrame) (r t : Nat),
        lookupCol df META_SOURCE_DATE_COL = none →
        return_date_list (some df) r t = .error .keyError)
    ∧ (∀ (df : DataFrame) (r t : Nat) (src : List Nat),
        lookupCol df META_SOURCE_DATE_COL = some src →
        ∃ out, return_date_list (some df) r t = .ok out) := by
  constructor
  · intro df r t h
    simp only [return_date_list, h]
  · intro df r t src h
    simp only [return_date_list, h]
    rcases hmin : (((dateRange (r - 1) t).drop 1).filter
        (fun d => !(src.contains d))).min? with _ | m
    · exact ⟨(sentinelDate, []), rfl⟩
    · exact ⟨(m - 1 + 1, (dateRange (r - 1) t).filter (fun d => decide (m - 1 ≤ d))), rfl⟩

/-- Witness for C3 (amended): a ledger without `source_date` raises
`KeyError`; a ledger with `source_date` but a stray second column
succeeds. -/
theorem claim_C3_amended_witness :
    return_date_list (some ⟨[("wrong_column", [1]), (META_PROCESS_COL, [2])]⟩) 3 4
      = .error .keyError
    ∧ ∃ out, return_date_list (some ⟨[(META_SOURCE_DATE_COL, [1]), ("extra", [2])]⟩) 3 4
      = .ok out :=
  ⟨claim_C3_amended.1 _ 3 4 (by decide), claim_C3_amended.2 _ 3 4 [1] (by decide)⟩

/-! ### The ledger write path (C4, C5, C6) -/

theorem lookup_emptyNew (s : String) :
    ((List.lookup s [(META_SOURCE_DATE_COL, ([] : List Nat)),
        (META_PROCESS_COL, [])]).getD []) = [] := by
  simp only [List.lookup]
  cases h1 : s == META_SOURCE_DATE_COL <;> cases h2 : s == META_PROCESS_COL <;>
    simp [h1, h2]

/-- Concatenating the empty new frame leaves the old ledger unchanged. -/
theorem dfConcat_empty (df : DataFrame) :
    dfConcat df ⟨[(META_SOURCE_DATE_COL, []), (META_PROCESS_COL, [])]⟩ = df := by
  unfold dfConcat
  cases df with
  | mk cols =>
      refine congrArg DataFrame.mk ?_
      have h : ∀ c ∈ cols,
          (c.1, c.2 ++ ((List.lookup c.1 [(META_SOURCE_DATE_COL, ([] : List Nat)),
              (META_PROCESS_COL, [])]).getD [])) = id c := by
        intro c _
        rw [lookup_emptyNew, List.append_nil]
        rfl
      rw [List.map_congr_left h, List.map_id]

/-- C4 counterexample: with an existing one-row ledger and an empty date
list, `update_meta_file` still performs a store write — it puts the
concatenated (unchanged) ledger back, because the empty-frame guard sees
the non-empty result, refuting "performs no write" at this input. -/
theorem claim_C4_counterexample :
    update_meta_file (some ⟨[(META_SOURCE_DATE_COL, [5]), (META_PROCESS_COL, [7])]⟩) [] 9
      = .ok (.wrote ⟨[(META_SOURCE_DATE_COL, [5]), (META_PROCESS_COL, [7])]⟩, true) := rfl

/-- C4 (amended): `update_meta_file` with an empty date list appends no
rows; it performs no store write when no ledger exists, but when a ledger
with matching columns is present it writes the ledger back unchanged (no
write only if that ledger itself has no rows), and when the ledger's
columns mismatch it raises `WrongMetaFileException` instead of returning
success. -/
theorem claim_C4_amended :
    (∀ now : Nat, update_meta_file none [] now = .ok (.noWrite, true))
    ∧ (∀ (df : DataFrame) (now : Nat),
        (namesOf df).isPerm [META_SOURCE_DATE_COL, META_PROCESS_COL] = true →
        update_meta_file (some df) [] now
          = .ok ((if df.isEmpty then .noWrite else .wrote df), true))
    ∧ (∀ (df : DataFrame) (now : Nat),
        (namesOf df).isPerm [META_SOURCE_DATE_COL, META_PROCESS_COL] = false →
        update_meta_file (some df) [] now = .error .wrongMetaFile) := by
  refine ⟨fun now => rfl, ?_, ?_⟩
  · intro df now hperm
    simp only [update_meta_file, List.map_nil]
    rw [show namesOf ⟨[(META_SOURCE_DATE_COL, ([] : List Nat)),
        (META_PROCESS_COL, [])]⟩ = [META_SOURCE_DATE_COL, META_PROCESS_COL] from rfl]
    rw [hperm, if_pos rfl, dfConcat_empty]
    cases hemp : df.isEmpty with
    | true => simp [write_df_to_s3, hemp, Except.map]
    | false => simp [write_df_to_s3, hemp, META_FILE_FORMAT, Except.map]
  · intro df now hperm
    simp only [update_meta_file, List.map_nil]
    rw [show namesOf ⟨[(META_SOURCE_DATE_COL, ([] : List Nat)),
        (META_PROCESS_COL, [])]⟩ = [META_SOURCE_DATE_COL, META_PROCESS_COL] from rfl]
    rw [hperm]
    simp

/-- Witness for C4 (amended) at concrete ledgers: no ledger gives no write;
a one-row matching ledger is written back unchanged; a mismatched ledger
raises the domain error. -/
theorem claim_C4_amended_witness :
    update_meta_file none [] 9 = .ok (.noWrite, true)
    ∧ update_meta_file (some ⟨[(META_PROCESS_COL, [7]), (META_SOURCE_DATE_COL, [5])]⟩) [] 9
        = .ok (.wrote ⟨[(META_PROCESS_COL, [7]), (META_SOURCE_DATE_COL, [5])]⟩, true)
    ∧ update_meta_file (some ⟨[("wrong_column", [5]), (META_PROCESS_COL, [7])]⟩) [] 9
        = .error .wrongMetaFile := by
  refine ⟨claim_C4_amended.1 9, ?_, claim_C4_amended.2.2 _ 9 (by decide)⟩
  have h := claim_C4_amended.2.1 ⟨[(META_PROCESS_COL, [7]), (META_SOURCE_DATE_COL, [5])]⟩
    9 (by decide)
  rw [h]
  rfl

/-- C5: appending a non-empty date list to an existing two-column ledger
writes back the old rows unchanged and in order, followed by one new row
per date in list order, every new `process_timestamp` cell equal to `now`,
and returns `True`. -/
theorem claim_C5 (olds oldts ds : List Nat) (now : Nat) (hds : ds ≠ []) :
    update_meta_file (some ⟨[(META_SOURCE_DATE_COL, olds), (META_PROCESS_COL, oldts)]⟩)
        ds now
      = .ok (.wrote ⟨[(META_SOURCE_DATE_COL, olds ++ ds),
          (META_PROCESS_COL, oldts ++ List.replicate ds.length now)]⟩, true) := by
  simp only [update_meta_file]
  rw [show (namesOf ⟨[(META_SOURCE_DATE_COL, olds), (META_PROCESS_COL, oldts)]⟩).isPerm
      (namesOf ⟨[(META_SOURCE_DATE_COL, ds), (META_PROCESS_COL, ds.map fun _ => now)]⟩)
      = true from by
        simp only [namesOf, List.map_cons, List.map_nil]
        decide]
  rw [if_pos rfl]
  have hcc : dfConcat ⟨[(META_SOURCE_DATE_COL, olds), (META_PROCESS_COL, oldts)]⟩
      ⟨[(META_SOURCE_DATE_COL, ds), (META_PROCESS_COL, ds.map fun _ => now)]⟩
      = ⟨[(META_SOURCE_DATE_COL, olds ++ ds),
          (META_PROCESS_COL, oldts ++ List.replicate ds.length now)]⟩ := by
    unfold dfConcat
    refine congrArg DataFrame.mk ?_
    simp [META_SOURCE_DATE_COL, META_PROCESS_COL, List.lookup, List.map_const']
  rw [hcc]
  have hne : (DataFrame.mk [(META_SOURCE_DATE_COL, olds ++ ds),
      (META_PROCESS_COL, oldts ++ List.replicate ds.length now)]).isEmpty = false := by
    simp [DataFrame.isEmpty, List.isEmpty_iff, hds]
  simp [write_df_to_s3, hne, META_FILE_FORMAT, Except.map]

/-- Witness for C5: a two-row ledger plus two new dates gives a four-row
ledger, old rows first, both new timestamps equal to `now = 9`. -/
theorem claim_C5_witness :
    update_meta_file (some ⟨[(META_SOURCE_DATE_COL, [1, 2]), (META_PROCESS_COL, [8, 8])]⟩)
        [3, 4] 9
      = .ok (.wrote ⟨[(META_SOURCE_DATE_COL, [1, 2, 3, 4]),
          (META_PROCESS_COL, [8, 8, 9, 9])]⟩, true) := by
  have h := claim_C5 [1, 2] [8, 8] [3, 4] 9 (by decide)
  rw [h]
  rfl

/-- C6: an existing ledger whose column-name multiset differs from the
expected two columns makes `update_meta_file` raise
`WrongMetaFileException`; the error is raised before any write is reached,
so the stored ledger is untouched. -/
theorem claim_C6 (df_old : DataFrame) (ds : List Nat) (now : Nat) (_hds : ds ≠ [])
    (hmis : (namesOf df_old).isPerm [META_SOURCE_DATE_COL, META_PROCESS_COL] = false) :
    update_meta_file (some df_old) ds now = .error .wrongMetaFile := by
  simp only [update_meta_file]
  rw [show namesOf ⟨[(META_SOURCE_DATE_COL, ds), (META_PROCESS_COL, ds.map fun _ => now)]⟩
      = [META_SOURCE_DATE_COL, META_PROCESS_COL] from by simp [namesOf]]
  rw [hmis]
  simp

/-- Witness for C6: a ledger with a misnamed first column and one new date
raises the domain error. -/
theorem claim_C6_witness :
    update_meta_file (some ⟨[("wrong_column", [1]), (META_PROCESS_COL, [8])]⟩) [3] 9
      = .error .wrongMetaFile :=
  claim_C6 ⟨[("wrong_column", [1]), (META_PROCESS_COL, [8])]⟩ [3] 9 (by decide) (by decide)

/-! ### The aggregation transform (C7, C8, C9) -/

theorem predIn_of_not_mem : ∀ (l : List Nat) (x : Nat), x ∉ l → predIn l x = none
  | [], _, _ => rfl
  | [_], _, _ => rfl
  | _ :: b :: rest, x, h => by
      have hb : ¬ b = x := fun hbx => h (by simp [hbx])
      rw [predIn, if_neg hb]
      exact predIn_of_not_mem (b :: rest) x (fun hx => h (List.mem_cons_of_mem _ hx))

theorem predIn_head (x : Nat) (l : List Nat) (h : x ∉ l) : predIn (x :: l) x = none := by
  cases l with
  | nil => rfl
  | cons y rest =>
      have hy : ¬ y = x := fun hyx => h (by simp [hyx])
      rw [predIn, if_neg hy]
      exact predIn_of_not_mem (y :: rest) x (fun hx => h hx)

theorem predIn_isSome_of_mem_tail :
    ∀ (l : List Nat) (a x : Nat), x ∈ l → ∃ p, predIn (a :: l) x = some p
  | [], _, x, h => absurd h (List.not_mem_nil x)
  | b :: l', a, x, h => by
      by_cases hb : b = x
      · exact ⟨a, by rw [predIn, if_pos hb]⟩
      · have hx : x ∈ l' := by
          rcases List.mem_cons.mp h with h1 | h2
          · exact absurd h1.symm hb
          · exact h2
        obtain ⟨p, hp⟩ := predIn_isSome_of_mem_tail l' b x hx
        exact ⟨p, by rw [predIn, if_neg hb]; exact hp⟩

theorem mem_rowsChain {df : List RawRecord} {i : String} :
    ∀ {ds : List Nat} {prev : Option ℚ} {r0 : Report1Row},
      r0 ∈ rowsChain df i ds prev → ∃ d prev', d ∈ ds ∧ r0 = aggRow df i d prev'
  | [], _, _, h => absurd h (List.not_mem_nil _)
  | d :: ds', prev, r0, h => by
      rcases List.mem_cons.mp h with h1 | h2
      · exact ⟨d, prev, List.mem_cons_self d ds', h1⟩
      · obtain ⟨d', p', hd', hr⟩ := mem_rowsChain h2
        exact ⟨d', p', List.mem_cons_of_mem _ hd', hr⟩

theorem mem_rowsChain_date {df : List RawRecord} {i : String} {ds : List Nat}
    {prev : Option ℚ} {r0 : Report1Row} (h : r0 ∈ rowsChain df i ds prev) :
    r0.date ∈ ds := by
  obtain ⟨d, p', hd, rfl⟩ := mem_rowsChain h
  exact hd

/-- The percent-change column along one instrument's chain: a row with no
predecessor in the date sequence got the chain's initial carried value; a
row whose predecessor is `d'` got the formula evaluated at `d'`'s opening
price. -/
theorem rowsChain_pct (df : List RawRecord) (i : String) :
    ∀ (ds : List Nat) (prev : Option ℚ) (r0 : Report1Row),
      ds.Nodup → r0 ∈ rowsChain df i ds prev →
      (predIn ds r0.date = none →
        r0.changePrevClosing
          = prev.map (fun p => (openingOf df i r0.date - p) / p * 100))
      ∧ (∀ d', predIn ds r0.date = some d' →
        r0.changePrevClosing
          = some ((openingOf df i r0.date - openingOf df i d')
              / openingOf df i d' * 100))
  | [], _, _, _, h => absurd h (List.not_mem_nil _)
  | d :: ds', prev, r0, hnd, h => by
      have hdtail : d ∉ ds' := (List.nodup_cons.mp hnd).1
      have hnd' : ds'.Nodup := (List.nodup_cons.mp hnd).2
      rcases List.mem_cons.mp h with h1 | h2
      · subst h1
        refine ⟨fun _ => rfl, fun d' hsome => ?_⟩
        have : predIn (d :: ds') (aggRow df i d prev).date = none := predIn_head d ds' hdtail
        rw [this] at hsome
        cases hsome
      · have ih := rowsChain_pct df i ds' (some (openingOf df i d)) r0 hnd' h2
        have hdate : r0.date ∈ ds' := mem_rowsChain_date h2
        cases ds' with
        | nil => exact absurd hdate (List.not_mem_nil _)
        | cons y rest =>
            by_cases hy : y = r0.date
            · have hfull : predIn (d :: y :: rest) r0.date = some d := by
                rw [predIn, if_pos hy]
              have htail : predIn (y :: rest) r0.date = none := by
                rw [← hy]
                exact predIn_head y rest (List.nodup_cons.mp hnd').1
              refine ⟨fun hnone => ?_, fun d' hsome => ?_⟩
              · rw [hfull] at hnone
                cases hnone
              · rw [hfull] at hsome
                injection hsome with hd'
                subst hd'
                simpa using ih.1 htail
            · have hfull : predIn (d :: y :: rest) r0.date = predIn (y :: rest) r0.date := by
                rw [predIn, if_neg hy]
              refine ⟨fun hnone => ?_, fun d' hsome => ?_⟩
              · rw [hfull] at hnone
                have hxr : r0.date ∈ rest := by
                  rcases List.mem_cons.mp hdate with h1 | h2
                  · exact absurd h1.symm hy
                  · exact h2
                obtain ⟨p, hp⟩ := predIn_isSome_of_mem_tail rest y r0.date hxr
                rw [hp] at hnone
                cases hnone
              · rw [hfull] at hsome
                exact ih.2 d' hsome

theorem nodup_datesOf (df : List RawRecord) (i : String) : (datesOf df i).Nodup := by
  unfold datesOf
  exact (List.perm_insertionSort _ _).nodup_iff.mpr (List.nodup_dedup _)

theorem sorted_datesOf (df : List RawRecord) (i : String) :
    (datesOf df i).Sorted (· ≤ ·) := by
  unfold datesOf
  exact List.sorted_insertionSort _ _

/-- Membership in the transform's output comes from one instrument's
chain. -/
theorem mem_transform {df : List RawRecord} {cutoff : Nat} {r : Report1Row}
    (h : r ∈ transform_report1 df cutoff) :
    ∃ i r0, i ∈ instrumentsOf df ∧ r0 ∈ rowsChain df i (datesOf df i) none
      ∧ r = roundRow r0 := by
  cases df with
  | nil => exact absurd h (List.not_mem_nil _)
  | cons a l =>
      simp only [transform_report1] at h
      rw [List.mem_filter] at h
      obtain ⟨hmem, _⟩ := h
      rw [List.mem_map] at hmem
      obtain ⟨r0, hr0, hround⟩ := hmem
      rw [List.mem_flatMap] at hr0
      obtain ⟨i, hi, hr0c⟩ := hr0
      exact ⟨i, r0, hi, hr0c, hround.symm⟩

/-- C7: every output row's percent change is computed against the opening
price of the immediately preceding date of the same instrument in the
ascending date sequence (`predIn`), as
`(opening_today - opening_prev) / opening_prev * 100` rounded to two
decimals; a row with no predecessor in the sequence carries no value. -/
theorem claim_C7 (df : List RawRecord) (cutoff : Nat) (r : Report1Row)
    (h : r ∈ transform_report1 df cutoff) :
    (datesOf df r.isin).Sorted (· ≤ ·)
    ∧ (predIn (datesOf df r.isin) r.date = none → r.changePrevClosing = none)
    ∧ (∀ d', predIn (datesOf df r.isin) r.date = some d' →
        r.changePrevClosing = some (round2
          ((openingOf df r.isin r.date - openingOf df r.isin d')
            / openingOf df r.isin d' * 100))) := by
  obtain ⟨i, r0, hi, hchain, rfl⟩ := mem_transform h
  obtain ⟨d, prev, hd, rfl⟩ := mem_rowsChain hchain
  have hp := rowsChain_pct df i (datesOf df i) none (aggRow df i d prev)
    (nodup_datesOf df i) hchain
  refine ⟨sorted_datesOf df i, ?_, ?_⟩
  · intro hnone
    have h1 := hp.1 hnone
    show ((aggRow df i d prev).changePrevClosing).map round2 = none
    rw [h1]
    rfl
  · intro d' hsome
    have h2 := hp.2 d' hsome
    show ((aggRow df i d prev).changePrevClosing).map round2 = _
    rw [h2]
    rfl

/-- C8: every output row's daily volume is the sum of the traded volumes of
exactly the input records sharing the row's instrument and date. -/
theorem claim_C8 (df : List RawRecord) (cutoff : Nat) (r : Report1Row)
    (_hdf : df ≠ []) (h : r ∈ transform_report1 df cutoff) :
    r.dailyTradedVolume
      = ((df.filter (fun x => x.isin == r.isin && x.date == r.date)).map
          RawRecord.tradedVolume).sum := by
  obtain ⟨i, r0, hi, hchain, rfl⟩ := mem_transform h
  obtain ⟨d, prev, hd, rfl⟩ := mem_rowsChain hchain
  rfl

/-- C9: the transform's output never contains a row dated before the
cutoff. -/
theorem claim_C9 (df : List RawRecord) (cutoff : Nat) (r : Report1Row)
    (h : r ∈ transform_report1 df cutoff) : cutoff ≤ r.date := by
  cases df with
  | nil => exact absurd h (List.not_mem_nil _)
  | cons a l =>
      simp only [transform_report1] at h
      rw [List.mem_filter] at h
      exact of_decide_eq_true h.2

/-- A two-record fixture for the transform witnesses: instrument "A" on
dates 5 and 6 with opening prices 10 and 30 and volumes 100 and 70. -/
def sampleRecords : List RawRecord :=
  [⟨"A", 5, 1, 10, 9, 11, 100⟩, ⟨"A", 6, 1, 30, 28, 31, 70⟩]

/-- The transform of the fixture, written as the two reduced-and-rounded
rows it produces. -/
theorem transform_sampleRecords :
    transform_report1 sampleRecords 5
      = [roundRow (aggRow sampleRecords "A" 5 none),
         roundRow (aggRow sampleRecords "A" 6 (some (openingOf sampleRecords "A" 5)))] :=
  rfl

/-- Witness for C7: in the fixture, the date-6 row's percent change is the
rounded formula evaluated at date 5's opening price. -/
theorem claim_C7_witness :
    (roundRow (aggRow sampleRecords "A" 6
        (some (openingOf sampleRecords "A" 5)))).changePrevClosing
      = some (round2
          ((openingOf sampleRecords "A" 6 - openingOf sampleRecords "A" 5)
            / openingOf sampleRecords "A" 5 * 100)) := by
  have hmem : roundRow (aggRow sampleRecords "A" 6 (some (openingOf sampleRecords "A" 5)))
      ∈ transform_report1 sampleRecords 5 := by
    rw [transform_sampleRecords]
    exact List.mem_cons_of_mem _ (List.mem_cons_self _ _)
  have h := claim_C7 sampleRecords 5 _ hmem
  exact h.2.2 5 (by decide)

/-- Witness for C8: the fixture's date-5 row carries daily volume 100, the
group sum of the matching input records. -/
theorem claim_C8_witness :
    (roundRow (aggRow sampleRecords "A" 5 none)).dailyTradedVolume = 100
    ∧ (roundRow (aggRow sampleRecords "A" 5 none)).dailyTradedVolume
        = ((sampleRecords.filter (fun x => x.isin == "A" && x.date == 5)).map
            RawRecord.tradedVolume).sum := by
  have hmem : roundRow (aggRow sampleRecords "A" 5 none)
      ∈ transform_report1 sampleRecords 5 := by
    rw [transform_sampleRecords]
    exact List.mem_cons_self _ _
  have h := claim_C8 sampleRecords 5 _ (List.cons_ne_nil _ _) hmem
  exact ⟨rfl, h⟩

/-- Witness for C9: with cutoff 5, the fixture's date-5 row is at or after
the cutoff. -/
theorem claim_C9_witness :
    (5 : Nat) ≤ (roundRow (aggRow sampleRecords "A" 5 none)).date := by
  have hmem : roundRow (aggRow sampleRecords "A" 5 none)
      ∈ transform_report1 sampleRecords 5 := by
    rw [transform_sampleRecords]
    exact List.mem_cons_self _ _
  exact claim_C9 sampleRecords 5 _ hmem

end Xetra
